import Mathlib

/-!
Verification development for the IANA zone core (`src/zones/IANAZone.js`).

The JavaScript module is shallowly embedded as follows.

* JavaScript numbers are modelled as `JSNum := Option ℚ`, with `none` playing
  the role of the `NaN` sentinel (all instants and offsets arising here are
  exact rationals, so no floating-point rounding is involved).
* Strings handled character-wise (formatter output) are `List Char`.
* The external locale-aware formatting service (`Intl.DateTimeFormat`, called
  "the oracle" by the module's specification) is a parameter: an `Oracle`
  record supplying, per zone name, whether each formatter construction
  succeeds and what text / field parts formatting produces.  A construction
  that the oracle rejects (`*CtorOk = false`) models a raised `RangeError`.
* The module-level mutable bindings (`directOffsetDTFCache`,
  `calculatedOffsetDTFCache`, `ianaZoneCache`, `offsetFunc`) become an
  explicit `LibState` threaded through every operation.  A formatter cache is
  modelled by the set (list) of zone names for which a formatter has been
  constructed and stored, since a formatter's behaviour is a pure function of
  the oracle and the zone name.
* JavaScript exceptions are modelled with `Except Unit`; an operation returns
  `(Except Unit α) × LibState` so that state mutations performed before a
  throw persist, exactly as in JavaScript.
* Object identity for `IANAZone` instances is modelled by an allocation
  counter `nextId` in `LibState`: each `new IANAZone(...)` stamps a fresh id.
-/

deriving instance DecidableEq for Except

/-- A JavaScript number: a rational, or `none` for the `NaN` sentinel. -/
abbrev JSNum := Option ℚ

/-- A JavaScript value as it occurs in the field array built by
`partsOffset`/`hackyOffset`: a number, a string, or `undefined`. -/
inductive JSVal where
  | num (q : JSNum)
  | str (s : String)
  | undef
deriving DecidableEq, Repr

/-- Value of a nonempty list of decimal digit characters, `none` otherwise. -/
def digitsVal (cs : List Char) : Option ℕ :=
  if cs ≠ [] ∧ cs.all Char.isDigit then
    some (cs.foldl (fun a c => 10 * a + (c.toNat - 48)) 0)
  else none

/-- JavaScript `Number(string)` restricted to the fragment that can reach this
module: optional surrounding spaces, an optional sign, decimal digits; the
empty (or all-space) string converts to `0`.  Other numeric syntaxes
(decimals, hex, exponents) never occur in the two-character slices and digit
groups handled here and are conservatively mapped to `NaN`. -/
def jsNumber (cs : List Char) : JSNum :=
  let t := ((cs.dropWhile (· = ' ')).reverse.dropWhile (· = ' ')).reverse
  if t = [] then some 0
  else if t.head? = some '-' then (digitsVal t.tail).map (fun n => -(n : ℚ))
  else if t.head? = some '+' then (digitsVal t.tail).map (fun n => (n : ℚ))
  else (digitsVal t).map (fun n => (n : ℚ))

/-- JavaScript `parseInt(string, 10)`: skip leading spaces, optional sign,
then the longest prefix of decimal digits; `NaN` if that prefix is empty. -/
def jsParseInt (cs : List Char) : JSNum :=
  let t := cs.dropWhile (· = ' ')
  if t.head? = some '-' then
    (digitsVal (t.tail.takeWhile Char.isDigit)).map (fun n => -(n : ℚ))
  else if t.head? = some '+' then
    (digitsVal (t.tail.takeWhile Char.isDigit)).map (fun n => (n : ℚ))
  else (digitsVal (t.takeWhile Char.isDigit)).map (fun n => (n : ℚ))

/-- JavaScript `ToNumber` on the values stored in the field array. -/
def jsToNumber : JSVal → JSNum
  | .num q => q
  | .str s => jsNumber s.data
  | .undef => none

/-- Truncation toward zero, as JavaScript's `ToIntegerOrInfinity`. -/
def jsTrunc (q : ℚ) : ℤ :=
  if 0 ≤ q then ⌊q⌋ else ⌈q⌉

/-- `String.prototype.charCodeAt`: the character code at the index,
`NaN` when the index is out of range. -/
def jsCharCodeAt (cs : List Char) (i : ℤ) : JSNum :=
  if h : 0 ≤ i ∧ i < (cs.length : ℤ) then
    some ((cs.get ⟨i.toNat, by omega⟩).toNat : ℚ)
  else none

/-- `String.prototype.slice(a, b)`: negative arguments count from the end,
then both are clamped to `[0, length]`. -/
def jsSlice (cs : List Char) (a b : ℤ) : List Char :=
  let len : ℤ := cs.length
  let na : ℤ := if a < 0 then max (len + a) 0 else min a len
  let nb : ℤ := if b < 0 then max (len + b) 0 else min b len
  if na < nb then (cs.drop na.toNat).take (nb - na).toNat else []

/-- Whether a character list begins with the three characters `G`, `M`, `T`. -/
def startsWithGMT : List Char → Bool
  | 'G' :: 'M' :: 'T' :: _ => true
  | _ => false

/-- `formatted.search(/GMT([+-][0-9][0-9]:[0-9][0-9](:[0-9][0-9])?)?/)`:
because the whole group after `GMT` is optional, the regular expression
matches exactly at the first occurrence of the substring `GMT`, so the search
result is the index of that occurrence (`none` renders JavaScript's `-1`). -/
def listIndexOfGMT : List Char → Option ℕ
  | [] => none
  | c :: rest =>
    if startsWithGMT (c :: rest) then some 0
    else (listIndexOfGMT rest).map (· + 1)

/-- The strategy resolved by the capability probe (which of `directOffset`
and `calculatedOffset` the module-level `offsetFunc` binding holds). -/
inductive Strategy where
  | direct
  | calculated
deriving DecidableEq, Repr

/-- The external formatting oracle (`Intl.DateTimeFormat`).  Each `*CtorOk`
field tells whether constructing the corresponding formatter for a zone name
succeeds (`false` models the constructor raising, which the oracle does for
unknown zone names and for unsupported options such as
`timeZoneName: "longOffset"`).  `directFormat` is `dtf.format(ts)` for the
direct-offset formatter (`.error` models a raised error, e.g. on a `NaN`
instant); `calcFormatToParts`/`calcFormat` are `formatToParts`/`format` of
the calculated-offset formatter, applied to an (integral) date value. -/
structure Oracle where
  directCtorOk : String → Bool
  directFormat : String → JSNum → Except Unit (List Char)
  calcCtorOk : String → Bool
  hasFormatToParts : Bool
  calcFormatToParts : String → ℤ → List (String × String)
  calcFormat : String → ℤ → List Char
  validatorOk : String → Bool

/-- An `IANAZone` instance: `zoneName` and `valid` are the two instance
fields; `id` is the allocation stamp standing for the object's heap
identity. -/
structure ZoneObj where
  id : ℕ
  zoneName : String
  valid : Bool
deriving DecidableEq, Repr

/-- The module-level mutable state of `IANAZone.js`: the zone identity cache
(`ianaZoneCache`, own properties as an association list), the two formatter
caches (as the lists of zone names holding a constructed formatter), the
lazily resolved `offsetFunc` binding, the allocation counter for object
identity, and a counter of validator (`isValidZone`) runs performed by the
`IANAZone` constructor. -/
structure LibState where
  ianaZoneCache : List (String × ZoneObj)
  directOffsetDTFCache : List String
  calculatedOffsetDTFCache : List String
  offsetFunc : Option Strategy
  nextId : ℕ
  validatorCalls : ℕ
deriving DecidableEq, Repr

/-- The pristine module state (all caches empty, strategy unresolved). -/
def LibState.init : LibState :=
  { ianaZoneCache := []
    directOffsetDTFCache := []
    calculatedOffsetDTFCache := []
    offsetFunc := none
    nextId := 0
    validatorCalls := 0 }

/-- `makeDirectOffsetDTF(zone)`: return the cached formatter, or construct
one (which may raise) and cache it.  The formatter itself is a pure function
of the oracle, so only the cache membership is recorded. -/
def makeDirectOffsetDTF (o : Oracle) (zone : String) (s : LibState) :
    Except Unit Unit × LibState :=
  if zone ∈ s.directOffsetDTFCache then (.ok (), s)
  else if o.directCtorOk zone then
    (.ok (), { s with directOffsetDTFCache := zone :: s.directOffsetDTFCache })
  else (.error (), s)

/-- `makeCalculatedOffsetDTF(zone)`: same shape as `makeDirectOffsetDTF`. -/
def makeCalculatedOffsetDTF (o : Oracle) (zone : String) (s : LibState) :
    Except Unit Unit × LibState :=
  if zone ∈ s.calculatedOffsetDTFCache then (.ok (), s)
  else if o.calcCtorOk zone then
    (.ok (), { s with calculatedOffsetDTFCache := zone :: s.calculatedOffsetDTFCache })
  else (.error (), s)

/-- Lines 111-121 of `directOffset`: locate the `GMT` token in the formatted
text, read the character after it as a sign, and combine the three
two-character slices into minutes.  `idx` is `-1` when the search fails, and
a `NaN` sign character (index out of range) yields offset `0`. -/
def parseDirect (formatted : List Char) : JSNum :=
  let idx : ℤ := match listIndexOfGMT formatted with
    | some n => (n : ℤ)
    | none => -1
  match jsCharCodeAt formatted (idx + 3) with
  | none => some 0
  | some sg =>
    match jsNumber (jsSlice formatted (idx + 4) (idx + 6)),
          jsNumber (jsSlice formatted (idx + 7) (idx + 9)),
          jsNumber (jsSlice formatted (idx + 10) (idx + 12)) with
    | some a, some b, some c => some ((44 - sg) * (a * 60 + b + c / 60))
    | _, _, _ => none

/-- `directOffset(zone, ts)`.  Formatter construction happens before the
`try` block, so a constructor error propagates; only a failure of
`dtf.format(ts)` is caught and mapped to `NaN`. -/
def directOffset (o : Oracle) (zone : String) (ts : JSNum) (s : LibState) :
    Except Unit JSNum × LibState :=
  match makeDirectOffsetDTF o zone s with
  | (.error _, s') => (.error (), s')
  | (.ok _, s') =>
    match o.directFormat zone ts with
    | .error _ => (.ok none, s')
    | .ok formatted => (.ok (parseDirect formatted), s')

/-- The field array built by `partsOffset`/`hackyOffset` (`typeToPos` maps
the field types to positions 0-6; the positions are rendered here as named
slots in that order: year, month, day, era, hour, minute, second).  Slots
never assigned stay `undefined`. -/
structure Filled where
  year : JSVal
  month : JSVal
  day : JSVal
  era : JSVal
  hour : JSVal
  minute : JSVal
  second : JSVal
deriving DecidableEq, Repr

/-- The field array before any part has been filled in. -/
def emptyFilled : Filled :=
  { year := .undef, month := .undef, day := .undef, era := .undef
    hour := .undef, minute := .undef, second := .undef }

/-- One iteration of the `partsOffset` loop: an `era` part is stored as a
string at its `typeToPos` slot, any other type present in `typeToPos` is
stored as `parseInt(value, 10)`, and types absent from `typeToPos`
(e.g. `literal`) are skipped. -/
def fillPart (f : Filled) (ty value : String) : Filled :=
  if ty = "era" then { f with era := .str value }
  else if ty = "year" then { f with year := .num (jsParseInt value.data) }
  else if ty = "month" then { f with month := .num (jsParseInt value.data) }
  else if ty = "day" then { f with day := .num (jsParseInt value.data) }
  else if ty = "hour" then { f with hour := .num (jsParseInt value.data) }
  else if ty = "minute" then { f with minute := .num (jsParseInt value.data) }
  else if ty = "second" then { f with second := .num (jsParseInt value.data) }
  else f

/-- `partsOffset(dtf, date)`: fold the structured parts into the field
array. -/
def partsOffset (parts : List (String × String)) : Filled :=
  parts.foldl (fun f p => fillPart f p.1 p.2) emptyFilled

/-- Require a literal character (one step of the fixed pattern). -/
def reqChar (c : Char) : List Char → Option (List Char)
  | x :: rest => if x = c then some rest else none
  | [] => none

/-- Require a nonempty maximal run of decimal digits (`\d+`). -/
def reqDigits (cs : List Char) : Option (List Char × List Char) :=
  let ds := cs.takeWhile Char.isDigit
  if ds = [] then none else some (ds, cs.drop ds.length)

/-- Require the era alternation `AD|BC`. -/
def reqEra : List Char → Option (String × List Char)
  | 'A' :: 'D' :: rest => some ("AD", rest)
  | 'B' :: 'C' :: rest => some ("BC", rest)
  | _ => none

/-- Try to match `(\d+)\/(\d+)\/(\d+) (AD|BC),? (\d+):(\d+):(\d+)` at the
head of the text, returning the seven capture groups.  Deterministic maximal
munch is equivalent to the regular expression's backtracking here because
every `\d+` is followed by a non-digit literal, `AD`/`BC` are disjoint, and
the optional `,` is followed by a mandatory space (`,` ≠ ` `). -/
def matchCivilAt (cs : List Char) :
    Option (String × String × String × String × String × String × String) := do
  let (g1, r1) ← reqDigits cs
  let r2 ← reqChar '/' r1
  let (g2, r3) ← reqDigits r2
  let r4 ← reqChar '/' r3
  let (g3, r5) ← reqDigits r4
  let r6 ← reqChar ' ' r5
  let (era, r7) ← reqEra r6
  let r8 := match r7 with
    | ',' :: t => t
    | t => t
  let r9 ← reqChar ' ' r8
  let (g5, r10) ← reqDigits r9
  let r11 ← reqChar ':' r10
  let (g6, r12) ← reqDigits r11
  let r13 ← reqChar ':' r12
  let (g7, _) ← reqDigits r13
  some (g1.asString, g2.asString, g3.asString, era, g5.asString, g6.asString, g7.asString)

/-- `regex.exec`: the leftmost position at which the civil pattern matches,
`none` rendering a `null` result. -/
def execCivil : List Char → Option (String × String × String × String × String × String × String)
  | [] => none
  | c :: rest =>
    match matchCivilAt (c :: rest) with
    | some g => some g
    | none => execCivil rest

/-- `hackyOffset(dtf, date)` applied to the already formatted text: strip
U+200E marks, run the civil-pattern regular expression, and reorder the
captured groups (month/day/year era, hour:minute:second) into the field
array as raw strings.  When the pattern does not match, `exec` yields `null`
and the array destructuring of `null` throws, modelled by `none`. -/
def hackyOffset (formatted : List Char) : Option Filled :=
  let cleaned := formatted.filter (· ≠ Char.ofNat 8206)
  match execCivil cleaned with
  | none => none
  | some (fMonth, fDay, fYear, fadOrBc, fHour, fMinute, fSecond) =>
    some { year := .str fYear, month := .str fMonth, day := .str fDay
           era := .str fadOrBc, hour := .str fHour, minute := .str fMinute
           second := .str fSecond }

/-- Days since 1970-01-01 of a proleptic Gregorian civil date (floor
division throughout, so the formula is total over ℤ). -/
def daysFromCivil (y m d : ℤ) : ℤ :=
  let y' := y - (if m ≤ 2 then 1 else 0)
  let era := Int.fdiv y' 400
  let yoe := y' - era * 400
  let mp := Int.fmod (m + 9) 12
  let doy := Int.fdiv (153 * mp + 2) 5 + d - 1
  let doe := yoe * 365 + Int.fdiv yoe 4 - Int.fdiv yoe 100 + doy
  era * 146097 + doe - 719468

/-- Modelled from the spec: `objToLocalTS` (from `impl/util.js`, which is
not part of the analysed sources) interprets a
(year, month, day, hour, minute, second, millisecond = 0) tuple as if it
were expressed in UTC and converts it to an epoch timestamp in milliseconds
"using standard proleptic Gregorian calendar rules".  Each field is coerced
to a number at this boundary (JavaScript's `Date.UTC` applies `ToNumber`
followed by truncation to its arguments); a `NaN` field makes the whole
timestamp `NaN`. -/
def objToLocalTS (y mo d h mi se : JSVal) : JSNum :=
  match jsToNumber y, jsToNumber mo, jsToNumber d,
        jsToNumber h, jsToNumber mi, jsToNumber se with
  | some yq, some moq, some dq, some hq, some miq, some seq =>
    some (((daysFromCivil (jsTrunc yq) (jsTrunc moq) (jsTrunc dq) * 86400
      + jsTrunc hq * 3600 + jsTrunc miq * 60 + jsTrunc seq) * 1000 : ℤ) : ℚ)
  | _, _, _, _, _, _ => none

/-- `new Date(ts)` followed by `+date`: `NaN` (or an epoch value of absolute
value above 8.64e15) gives an invalid date; otherwise the time value is the
truncated epoch milliseconds. -/
def dateValue : JSNum → Option ℤ
  | none => none
  | some q => if |q| ≤ 8640000000000000 then some (jsTrunc q) else none

/-- Lines 94-96: floor the true epoch value to whole seconds
(`over = asTS % 1000` with JavaScript's truncated remainder, then subtract
`over` when nonnegative and `1000 + over` otherwise). -/
def floorSecond (t : ℤ) : ℤ :=
  let over := Int.tmod t 1000
  t - (if 0 ≤ over then over else 1000 + over)

/-- Lines 77-97 of `calculatedOffset`, applied after the field array has
been obtained: the BC year transform (`year = -Math.abs(year) + 1`, under a
strict comparison of the era slot with the string `"BC"`), the hour
normalization (`hour === 24 ? 0 : hour` — a strict comparison, true only
when the slot holds the *number* 24), the as-UTC conversion, and the final
`(asUTC - asTS) / (60 * 1000)`. -/
def calcFromFields (f : Filled) (dv : ℤ) : JSNum :=
  let year := if f.era = JSVal.str "BC" then
      JSVal.num ((jsToNumber f.year).map (fun q => -|q| + 1))
    else f.year
  let adjustedHour := if f.hour = JSVal.num (some 24) then JSVal.num (some 0) else f.hour
  match objToLocalTS year f.month f.day adjustedHour f.minute f.second with
  | none => none
  | some asUTC =>
    let asTS := floorSecond dv
    some ((asUTC - (asTS : ℚ)) / (60 * 1000))

/-- `calculatedOffset(zone, ts)`.  The instant is `NaN`-checked before any
formatter is constructed; formatter construction may raise (uncaught); the
field array comes from `partsOffset` when the oracle supports
`formatToParts` and from `hackyOffset` otherwise, and a failed pattern match
in the latter raises (uncaught). -/
def calculatedOffset (o : Oracle) (zone : String) (ts : JSNum) (s : LibState) :
    Except Unit JSNum × LibState :=
  match dateValue ts with
  | none => (.ok none, s)
  | some dv =>
    match makeCalculatedOffsetDTF o zone s with
    | (.error _, s') => (.error (), s')
    | (.ok _, s') =>
      if o.hasFormatToParts then
        (.ok (calcFromFields (partsOffset (o.calcFormatToParts zone dv)) dv), s')
      else
        match hackyOffset (o.calcFormat zone dv) with
        | none => (.error (), s')
        | some f => (.ok (calcFromFields f dv), s')

/-- The enumerable-free truthy properties a plain JavaScript object `{}`
inherits from `Object.prototype`.  `ianaZoneCache` is such an object, so
`ianaZoneCache[name]` for any of these names yields an inherited function
(or, for `__proto__`, the prototype object) — a truthy, non-`IANAZone`
value. -/
def objectProtoTruthyKeys : List String :=
  ["constructor", "hasOwnProperty", "isPrototypeOf", "propertyIsEnumerable",
   "toLocaleString", "toString", "valueOf", "__proto__",
   "__defineGetter__", "__defineSetter__", "__lookupGetter__", "__lookupSetter__"]

/-- What `IANAZone.create(name)` evaluates to: a zone object, or a value
inherited from `Object.prototype` through the cache object's prototype
chain (identified by the property name, since the inherited value for a
given name is one fixed object for the process lifetime). -/
inductive CreateResult where
  | zone (z : ZoneObj)
  | inherited (name : String)
deriving DecidableEq, Repr

/-- `IANAZone.isValidZone(zone)`: the empty (falsy) string short-circuits to
`false`; otherwise the result records whether the minimal
`new Intl.DateTimeFormat("en-US", { timeZone: zone }).format()` probe
succeeds — `validatorOk = false` models the oracle raising, which the
surrounding `try`/`catch` maps to `false`. -/
def IANAZone.isValidZone (o : Oracle) (zone : String) : Bool :=
  if zone = "" then false
  else o.validatorOk zone

/-- `IANAZone.create(name)`: `if (!ianaZoneCache[name])` tests the property
lookup for truthiness.  An own entry (always a zone object, hence truthy) or
a truthy inherited `Object.prototype` property skips construction and is
returned as-is; only a genuinely absent (`undefined`) property triggers
`new IANAZone(name)` (which runs the validator once) and the store.  For an
inherited name nothing is ever stored. -/
def IANAZone.create (o : Oracle) (name : String) (s : LibState) :
    CreateResult × LibState :=
  match s.ianaZoneCache.lookup name with
  | some z => (.zone z, s)
  | none =>
    if name ∈ objectProtoTruthyKeys then (.inherited name, s)
    else
      let z : ZoneObj := { id := s.nextId, zoneName := name
                           valid := IANAZone.isValidZone o name }
      (.zone z,
       { s with ianaZoneCache := (name, z) :: s.ianaZoneCache
                nextId := s.nextId + 1
                validatorCalls := s.validatorCalls + 1 })

/-- `IANAZone.resetCache()`: empties `ianaZoneCache`,
`calculatedOffsetDTFCache` and `directOffsetDTFCache`.  The `offsetFunc`
binding (the resolved Active Strategy) is *not* touched by the source. -/
def IANAZone.resetCache (s : LibState) : LibState :=
  { s with ianaZoneCache := []
           calculatedOffsetDTFCache := []
           directOffsetDTFCache := [] }

/-- Lines 219-234 of `offset`: when `offsetFunc` is still `undefined`, probe
`directOffset` on `Etc/GMT`, `Etc/GMT+1` and `Etc/GMT-1` at `Date.now()`
(the `now` argument) with `||` short-circuiting, selecting the direct
resolver only when the three calls return exactly `0`, `-60` and `+60`; any
raised error (including the deliberate `throw` on a mismatch) selects the
calculated resolver.  When `offsetFunc` is already set it is used as is. -/
def resolveOffsetFunc (o : Oracle) (now : ℤ) (s : LibState) :
    Strategy × LibState :=
  match s.offsetFunc with
  | some f => (f, s)
  | none =>
    match directOffset o "Etc/GMT" (some (now : ℚ)) s with
    | (.ok (some q1), s1) =>
      if q1 = 0 then
        match directOffset o "Etc/GMT+1" (some (now : ℚ)) s1 with
        | (.ok (some q2), s2) =>
          if q2 = -60 then
            match directOffset o "Etc/GMT-1" (some (now : ℚ)) s2 with
            | (.ok (some q3), s3) =>
              if q3 = 60 then (.direct, { s3 with offsetFunc := some .direct })
              else (.calculated, { s3 with offsetFunc := some .calculated })
            | (_, s3) => (.calculated, { s3 with offsetFunc := some .calculated })
          else (.calculated, { s2 with offsetFunc := some .calculated })
        | (_, s2) => (.calculated, { s2 with offsetFunc := some .calculated })
      else (.calculated, { s1 with offsetFunc := some .calculated })
    | (_, s1) => (.calculated, { s1 with offsetFunc := some .calculated })

/-- `IANAZone.prototype.offset(ts)`: resolve the strategy (lazily, at most
once) and apply the chosen resolver to `this.name` and the instant.  The
final call happens outside the probe's `try`, so an error raised by the
chosen resolver propagates to the caller. -/
def IANAZone.offset (o : Oracle) (now : ℤ) (z : ZoneObj) (ts : JSNum)
    (s : LibState) : Except Unit JSNum × LibState :=
  let fs := resolveOffsetFunc o now s
  match fs.1 with
  | .direct => directOffset o z.zoneName ts fs.2
  | .calculated => calculatedOffset o z.zoneName ts fs.2

/-- A value below 100 rendered as two decimal digit characters. -/
def twoDig (n : ℕ) : List Char :=
  [Char.ofNat (48 + n / 10), Char.ofNat (48 + n % 10)]

/-- The offset token the oracle's `longOffset` style embeds in its output:
`GMT`, a sign character, two-digit hours, `:`, two-digit minutes and
optionally `:` plus two-digit seconds. -/
def gmtTokenC (sgn : Char) (h m : ℕ) (sec : Option ℕ) : List Char :=
  ['G', 'M', 'T', sgn] ++ twoDig h ++ [':'] ++ twoDig m ++
    (match sec with
     | none => []
     | some x => [':'] ++ twoDig x)

lemma digitChar_isDigit {k : ℕ} (hk : k < 10) : (Char.ofNat (48 + k)).isDigit = true := by
  interval_cases k <;> decide

lemma digitChar_toNat {k : ℕ} (hk : k < 10) : (Char.ofNat (48 + k)).toNat = 48 + k := by
  interval_cases k <;> decide

lemma digitChar_ne_space {k : ℕ} (hk : k < 10) : Char.ofNat (48 + k) ≠ ' ' := by
  interval_cases k <;> decide

lemma digitChar_ne_minus {k : ℕ} (hk : k < 10) : Char.ofNat (48 + k) ≠ '-' := by
  interval_cases k <;> decide

lemma digitChar_ne_plus {k : ℕ} (hk : k < 10) : Char.ofNat (48 + k) ≠ '+' := by
  interval_cases k <;> decide

lemma digitsVal_twoDig {n : ℕ} (hn : n < 100) : digitsVal (twoDig n) = some n := by
  have h1 : n / 10 < 10 := by omega
  have h2 : n % 10 < 10 := by omega
  have hc : twoDig n ≠ [] ∧ (twoDig n).all Char.isDigit := by
    refine ⟨by simp [twoDig], ?_⟩
    simp [twoDig, digitChar_isDigit h1, digitChar_isDigit h2]
  rw [digitsVal, if_pos hc]
  simp only [twoDig, List.foldl]
  rw [digitChar_toNat h1, digitChar_toNat h2]
  congr 1
  omega

lemma twoDig_trim {n : ℕ} (hn : n < 100) :
    (((twoDig n).dropWhile (· = ' ')).reverse.dropWhile (· = ' ')).reverse = twoDig n := by
  have h1 := digitChar_ne_space (show n / 10 < 10 by omega)
  have h2 := digitChar_ne_space (show n % 10 < 10 by omega)
  simp [twoDig, List.dropWhile, h1, h2]

lemma jsNumber_twoDig {n : ℕ} (hn : n < 100) : jsNumber (twoDig n) = some (n : ℚ) := by
  have hm := digitChar_ne_minus (show n / 10 < 10 by omega)
  have hp := digitChar_ne_plus (show n / 10 < 10 by omega)
  rw [jsNumber]
  simp only [twoDig_trim hn]
  rw [if_neg (by simp [twoDig]), if_neg (by simp [twoDig, hm]),
      if_neg (by simp [twoDig, hp]), digitsVal_twoDig hn]
  rfl

lemma jsNumber_nil : jsNumber [] = some 0 := rfl

lemma jsCharCodeAt_append (pre l : List Char) (k : ℕ) (hk : k < l.length) :
    jsCharCodeAt (pre ++ l) ((pre.length : ℤ) + k) = some (((l.get ⟨k, hk⟩).toNat : ℚ)) := by
  have h1 : (0 : ℤ) ≤ (pre.length : ℤ) + k := by omega
  have h2 : (pre.length : ℤ) + k < ((pre ++ l).length : ℤ) := by
    rw [List.length_append]; push_cast; omega
  rw [jsCharCodeAt, dif_pos ⟨h1, h2⟩]
  have h3 : ((pre.length : ℤ) + k).toNat = pre.length + k := by omega
  simp only [List.get_eq_getElem, h3]
  rw [List.getElem_append_right (by omega)]
  have h4 : pre.length + k - pre.length = k := by omega
  simp only [h4]

lemma jsSlice_append (pre l : List Char) (a b : ℕ) (hab : a ≤ b) (hb : b ≤ l.length) :
    jsSlice (pre ++ l) ((pre.length : ℤ) + a) ((pre.length : ℤ) + b)
      = (l.drop a).take (b - a) := by
  simp only [jsSlice, List.length_append]
  have hna : ¬ ((pre.length : ℤ) + a < 0) := by omega
  have hnb : ¬ ((pre.length : ℤ) + b < 0) := by omega
  rw [if_neg hna, if_neg hnb]
  have hmina : min ((pre.length : ℤ) + a) ((pre.length : ℤ) + (l.length : ℤ)) = (pre.length : ℤ) + a := by
    omega
  have hminb : min ((pre.length : ℤ) + b) ((pre.length : ℤ) + (l.length : ℤ)) = (pre.length : ℤ) + b := by
    omega
  push_cast
  rw [hmina, hminb]
  by_cases hlt : a < b
  · rw [if_pos (by omega)]
    have ha' : ((pre.length : ℤ) + a).toNat = pre.length + a := by omega
    have hd : ((pre.length : ℤ) + b - ((pre.length : ℤ) + a)).toNat = b - a := by omega
    rw [ha', hd, List.drop_append]
  · have hba : a = b := by omega
    rw [if_neg (by omega), hba, Nat.sub_self, List.take_zero]

lemma jsSlice_append_beyond (pre l : List Char) (a b : ℕ) (hab : a ≤ b) (ha : l.length ≤ a) :
    jsSlice (pre ++ l) ((pre.length : ℤ) + a) ((pre.length : ℤ) + b) = [] := by
  simp only [jsSlice, List.length_append]
  have hna : ¬ ((pre.length : ℤ) + a < 0) := by omega
  have hnb : ¬ ((pre.length : ℤ) + b < 0) := by omega
  rw [if_neg hna, if_neg hnb]
  push_cast
  have hmina : min ((pre.length : ℤ) + a) ((pre.length : ℤ) + (l.length : ℤ)) = (pre.length : ℤ) + l.length := by
    omega
  have hminb : min ((pre.length : ℤ) + b) ((pre.length : ℤ) + (l.length : ℤ)) = (pre.length : ℤ) + l.length := by
    omega
  rw [hmina, hminb, if_neg (by omega)]

lemma gmtTokenC_getElem_three (sgn : Char) (h m : ℕ) (sec : Option ℕ)
    (hlen : 3 < (gmtTokenC sgn h m sec).length) :
    (gmtTokenC sgn h m sec).get ⟨3, hlen⟩ = sgn := by
  cases sec <;> rfl

/-- Core correctness of lines 111-121: on a text consisting of an arbitrary
prefix followed (at the position located by the search) by a terminal
`GMT<sign>hh:mm` or `GMT<sign>hh:mm:ss` token, `parseDirect` computes
`(44 - code(sign)) * (hh * 60 + mm + ss / 60)`, the seconds defaulting to
`0` when the token carries none (the out-of-range slice is the empty string,
which `Number` converts to `0`). -/
lemma parseDirect_token (pre : List Char) (sgn : Char) (h m : ℕ) (sec : Option ℕ)
    (hidx : listIndexOfGMT (pre ++ gmtTokenC sgn h m sec) = some pre.length)
    (hh : h < 100) (hm : m < 100) (hs : sec.getD 0 < 100) :
    parseDirect (pre ++ gmtTokenC sgn h m sec)
      = some ((44 - (sgn.toNat : ℚ)) * ((h : ℚ) * 60 + (m : ℚ) + (sec.getD 0 : ℚ) / 60)) := by
  have hlen : 3 < (gmtTokenC sgn h m sec).length := by
    cases sec <;> simp [gmtTokenC, twoDig]
  have hcc : jsCharCodeAt (pre ++ gmtTokenC sgn h m sec) ((pre.length : ℤ) + 3)
      = some ((sgn.toNat : ℚ)) := by
    have e := jsCharCodeAt_append pre (gmtTokenC sgn h m sec) 3 hlen
    rw [gmtTokenC_getElem_three sgn h m sec hlen] at e
    simpa using e
  have e1 : ((gmtTokenC sgn h m sec).drop 4).take 2 = twoDig h := by
    cases sec <;> simp [gmtTokenC, twoDig]
  have e2 : ((gmtTokenC sgn h m sec).drop 7).take 2 = twoDig m := by
    cases sec <;> simp [gmtTokenC, twoDig]
  have hs1 : jsSlice (pre ++ gmtTokenC sgn h m sec) ((pre.length : ℤ) + 4) ((pre.length : ℤ) + 6)
      = twoDig h := by
    have e := jsSlice_append pre (gmtTokenC sgn h m sec) 4 6
      (by omega) (by cases sec <;> simp [gmtTokenC, twoDig])
    rw [show (6 : ℕ) - 4 = 2 from rfl, e1] at e
    simpa using e
  have hs2 : jsSlice (pre ++ gmtTokenC sgn h m sec) ((pre.length : ℤ) + 7) ((pre.length : ℤ) + 9)
      = twoDig m := by
    have e := jsSlice_append pre (gmtTokenC sgn h m sec) 7 9
      (by omega) (by cases sec <;> simp [gmtTokenC, twoDig])
    rw [show (9 : ℕ) - 7 = 2 from rfl, e2] at e
    simpa using e
  have hs3 : jsNumber (jsSlice (pre ++ gmtTokenC sgn h m sec)
        ((pre.length : ℤ) + 10) ((pre.length : ℤ) + 12))
      = some ((sec.getD 0 : ℚ)) := by
    cases sec with
    | none =>
      have e := jsSlice_append_beyond pre (gmtTokenC sgn h m none)
        10 12 (by omega) (by simp [gmtTokenC, twoDig])
      simp only [Option.getD]
      rw [show ((10 : ℕ) : ℤ) = (10 : ℤ) from rfl] at e
      rw [show ((12 : ℕ) : ℤ) = (12 : ℤ) from rfl] at e
      rw [e, jsNumber_nil]
      norm_num
    | some x =>
      have e3 : ((gmtTokenC sgn h m (some x)).drop 10).take 2 = twoDig x := by
        simp [gmtTokenC, twoDig]
      have e := jsSlice_append pre (gmtTokenC sgn h m (some x))
        10 12 (by omega) (by simp [gmtTokenC, twoDig])
      rw [show (12 : ℕ) - 10 = 2 from rfl, e3] at e
      rw [show ((10 : ℕ) : ℤ) = (10 : ℤ) from rfl] at e
      rw [show ((12 : ℕ) : ℤ) = (12 : ℤ) from rfl] at e
      rw [e, jsNumber_twoDig (by simpa using hs)]
      rfl
  simp only [parseDirect, hidx]
  rw [show ((pre.length : ℤ)) + 3 = (pre.length : ℤ) + 3 from rfl]
  rw [hcc, hs1, hs2]
  rw [jsNumber_twoDig hh, jsNumber_twoDig hm, hs3]

lemma jsTrunc_intCast (z : ℤ) : jsTrunc (z : ℚ) = z := by
  unfold jsTrunc
  split <;> simp

lemma dateValue_intCast {ts : ℤ} (h : |ts| ≤ 8640000000000000) :
    dateValue (some (ts : ℚ)) = some ts := by
  simp only [dateValue]
  rw [if_pos, jsTrunc_intCast]
  rw [show |(ts : ℚ)| = ((|ts| : ℤ) : ℚ) by push_cast; ring]
  exact_mod_cast h

/-- A structured `formatToParts` output for the fixed
`month/day/year era, hour:minute:second` configuration, with the part
values as raw strings. -/
def civilParts (vmo vd vy era vh vmi vs : String) : List (String × String) :=
  [("month", vmo), ("literal", "/"), ("day", vd), ("literal", "/"), ("year", vy),
   ("literal", " "), ("era", era), ("literal", ", "), ("hour", vh),
   ("literal", ":"), ("minute", vmi), ("literal", ":"), ("second", vs)]

lemma partsOffset_civilParts (vmo vd vy era vh vmi vs : String) :
    partsOffset (civilParts vmo vd vy era vh vmi vs) =
      { year := .num (jsParseInt vy.data), month := .num (jsParseInt vmo.data)
        day := .num (jsParseInt vd.data), era := .str era
        hour := .num (jsParseInt vh.data), minute := .num (jsParseInt vmi.data)
        second := .num (jsParseInt vs.data) } := by
  rfl

/-- `calcFromFields` on an all-numeric field tuple with era `AD` and an hour
other than 24: the plain as-UTC difference quotient. -/
lemma calcFromFields_intFields (y mo d hh mi ss dv : ℤ) (hh24 : hh ≠ 24) :
    calcFromFields
      { year := .num (some (y : ℚ)), month := .num (some (mo : ℚ))
        day := .num (some (d : ℚ)), era := .str "AD"
        hour := .num (some (hh : ℚ)), minute := .num (some (mi : ℚ))
        second := .num (some (ss : ℚ)) } dv
    = some (((((daysFromCivil y mo d * 86400 + hh * 3600 + mi * 60 + ss) * 1000 : ℤ) : ℚ)
        - ((floorSecond dv : ℤ) : ℚ)) / (60 * 1000)) := by
  unfold calcFromFields
  rw [if_neg (by simp)]
  rw [if_neg (by
    intro hcon
    apply hh24
    have : ((hh : ℚ)) = 24 := by
      injection hcon with h1
      injection h1
    exact_mod_cast this)]
  unfold objToLocalTS jsToNumber
  simp only [jsTrunc_intCast]

/-- **C2.** For a valid zone name (both formatter constructions succeed) and
an instant at which both resolvers are computable, with the oracle reporting
one consistent offset of `secs` seconds — the direct-style text carries a
terminal `GMT<sign>hh:mm:ss` token encoding `secs`, and the
calculated-style fields, reinterpreted as UTC, equal the instant floored to
whole seconds shifted by `secs` seconds — the Direct resolver and the
Calculated resolver return the same `offset(z, t)` (exactly equal, hence
within any rounding tolerance), in any cache states. -/
theorem direct_calculated_agree
    (o : Oracle) (z : String) (ts secs : ℤ)
    (pre : List Char) (neg : Bool) (hrs mins sec : ℕ)
    (y mo d hh mi ss : ℤ) (vmo vd vy vh vmi vs : String)
    (s s' : LibState)
    (hts : |ts| ≤ 8640000000000000)
    (hd : o.directCtorOk z = true)
    (hc : o.calcCtorOk z = true)
    (hp : o.hasFormatToParts = true)
    (hfmt : o.directFormat z (some (ts : ℚ))
      = .ok (pre ++ gmtTokenC (if neg then '-' else '+') hrs mins (some sec)))
    (hidx : listIndexOfGMT (pre ++ gmtTokenC (if neg then '-' else '+') hrs mins (some sec))
      = some pre.length)
    (hh100 : hrs < 100) (hm100 : mins < 100) (hs100 : sec < 100)
    (hsecs : secs = (if neg then -1 else 1) * ((hrs : ℤ) * 3600 + mins * 60 + sec))
    (hparts : o.calcFormatToParts z ts = civilParts vmo vd vy "AD" vh vmi vs)
    (hvy : jsParseInt vy.data = some (y : ℚ)) (hvmo : jsParseInt vmo.data = some (mo : ℚ))
    (hvd : jsParseInt vd.data = some (d : ℚ)) (hvh : jsParseInt vh.data = some (hh : ℚ))
    (hvmi : jsParseInt vmi.data = some (mi : ℚ)) (hvs : jsParseInt vs.data = some (ss : ℚ))
    (hh24 : hh ≠ 24)
    (hutc : (daysFromCivil y mo d * 86400 + hh * 3600 + mi * 60 + ss) * 1000
      = floorSecond ts + secs * 1000) :
    (directOffset o z (some (ts : ℚ)) s).1 = .ok (some ((secs : ℚ) / 60))
    ∧ (calculatedOffset o z (some (ts : ℚ)) s').1 = .ok (some ((secs : ℚ) / 60)) := by
  constructor
  · have hparse := parseDirect_token pre (if neg then '-' else '+') hrs mins (some sec)
      hidx hh100 hm100 (by simpa using hs100)
    simp only [Option.getD_some] at hparse
    have h43 : ('+' : Char).toNat = 43 := rfl
    have h45 : ('-' : Char).toNat = 45 := rfl
    have hval : ((44 : ℚ) - (((if neg then '-' else '+') : Char).toNat : ℚ))
        * ((hrs : ℚ) * 60 + (mins : ℚ) + (sec : ℚ) / 60) = (secs : ℚ) / 60 := by
      subst hsecs
      cases neg
      · norm_num [h43]
        ring
      · norm_num [h45]
        ring
    by_cases zm : z ∈ s.directOffsetDTFCache <;>
      simp [directOffset, makeDirectOffsetDTF, zm, hd, hfmt, hparse, hval]
  · have hdv := dateValue_intCast hts
    have hfields := partsOffset_civilParts vmo vd vy "AD" vh vmi vs
    by_cases zm : z ∈ s'.calculatedOffsetDTFCache <;>
      · simp only [calculatedOffset, hdv, makeCalculatedOffsetDTF, zm, hc, hp, if_true,
          if_false, ite_true, ite_false, hparts, hfields, hvy, hvmo, hvd, hvh, hvmi, hvs]
        rw [calcFromFields_intFields y mo d hh mi ss ts hh24]
        rw [hutc]
        congr 1
        push_cast
        field_simp
        ring

/-- A concrete oracle used to instantiate theorems on explicit inputs: every
formatter construction succeeds, every zone formats like an
Indian-standard-time clock at the epoch (offset +05:30, direct text
`1/1/1970, GMT+05:30`, matching civil fields 1/1/1970 AD, 05:30:00), and
the validator accepts two sample names. -/
def sampleOracle : Oracle :=
  { directCtorOk := fun _ => true
    directFormat := fun _ _ => .ok (("1/1/1970, ").data ++ gmtTokenC '+' 5 30 (some 0))
    calcCtorOk := fun _ => true
    hasFormatToParts := true
    calcFormatToParts := fun _ _ => civilParts "1" "1" "1970" "AD" "5" "30" "0"
    calcFormat := fun _ _ => []
    validatorOk := fun zn => zn == "Etc/GMT" || zn == "Asia/Kolkata" }

/-- Witness for C2: both resolvers applied to the sample oracle at the epoch
yield exactly +330 minutes (19800 seconds / 60). -/
theorem direct_calculated_agree_witness :
    (directOffset sampleOracle "Asia/Kolkata" (some ((0 : ℤ) : ℚ)) LibState.init).1
        = .ok (some (((19800 : ℤ) : ℚ) / 60))
    ∧ (calculatedOffset sampleOracle "Asia/Kolkata" (some ((0 : ℤ) : ℚ)) LibState.init).1
        = .ok (some (((19800 : ℤ) : ℚ) / 60)) :=
  direct_calculated_agree sampleOracle "Asia/Kolkata" 0 19800 (("1/1/1970, ").data)
    false 5 30 0 1970 1 1 5 30 0 "1" "1" "1970" "5" "30" "0"
    LibState.init LibState.init
    (by decide) rfl rfl rfl (by rfl) (by decide) (by decide) (by decide) (by decide)
    (by decide) rfl (by decide) (by decide) (by decide) (by decide) (by decide)
    (by decide) (by decide) (by decide)

/-- **C6.** For every zone name, two calls to `create(name)` with no
intervening `resetCache()` return the identical object (in the model:
identical `CreateResult`, including the allocation stamp), and the second
call does not change the module state.  This covers both the caching path
(a miss stores the constructed zone, which the second call then finds) and
the prototype-inherited path (both calls return the same inherited
value). -/
theorem create_idempotent (o : Oracle) (name : String) (s : LibState) :
    (IANAZone.create o name ((IANAZone.create o name s).2)).1
        = (IANAZone.create o name s).1
    ∧ (IANAZone.create o name ((IANAZone.create o name s).2)).2
        = (IANAZone.create o name s).2 := by
  match hm : s.ianaZoneCache.lookup name with
  | some z =>
    simp [IANAZone.create, hm]
  | none =>
    by_cases hp : name ∈ objectProtoTruthyKeys
    · simp [IANAZone.create, hm, hp]
    · simp [IANAZone.create, hm, hp, List.lookup]

/-- **C7.** `isValidZone` maps the empty (falsy) string to `false` without
consulting the oracle (the result is the same for every oracle), and for
every other string returns exactly the oracle's verdict on constructing the
minimal formatter — where a `false` verdict models the oracle raising,
caught by the surrounding `try`/`catch`; the operation always returns a
boolean, never propagating an error. -/
theorem isValidZone_contract :
    (∀ o₁ o₂ : Oracle, IANAZone.isValidZone o₁ "" = false
        ∧ IANAZone.isValidZone o₁ "" = IANAZone.isValidZone o₂ "")
    ∧ ∀ (o : Oracle) (z : String), z ≠ "" → IANAZone.isValidZone o z = o.validatorOk z := by
  refine ⟨fun o₁ o₂ => ⟨rfl, rfl⟩, fun o z hz => ?_⟩
  unfold IANAZone.isValidZone
  rw [if_neg hz]

/-- Witness for C7, matching the spec's examples on the sample oracle:
`Etc/GMT` valid, `Fantasia/Castle` invalid, the empty string invalid. -/
theorem isValidZone_contract_witness :
    IANAZone.isValidZone sampleOracle "Etc/GMT" = true
    ∧ IANAZone.isValidZone sampleOracle "Fantasia/Castle" = false
    ∧ IANAZone.isValidZone sampleOracle "" = false := by
  refine ⟨?_, ?_, (isValidZone_contract.1 sampleOracle sampleOracle).1⟩
  · rw [isValidZone_contract.2 sampleOracle "Etc/GMT" (by decide)]
    rfl
  · rw [isValidZone_contract.2 sampleOracle "Fantasia/Castle" (by decide)]
    rfl

/-- **C10.** For names coinciding with truthy `Object.prototype` properties
of the plain object used as the zone cache — `toString`, `constructor`,
`__proto__` — `create(name)` returns the inherited non-Zone value and
leaves the state unchanged (nothing stored, no `IANAZone` constructed, no
validator run: `nextId` and `validatorCalls` are those of `s`), provided the
cache holds no own entry under those names (no reachable state does, since
this very behaviour prevents such entries from ever being stored). -/
theorem create_inherited_names (o : Oracle) (s : LibState)
    (h1 : s.ianaZoneCache.lookup "toString" = none)
    (h2 : s.ianaZoneCache.lookup "constructor" = none)
    (h3 : s.ianaZoneCache.lookup "__proto__" = none) :
    IANAZone.create o "toString" s = (.inherited "toString", s)
    ∧ IANAZone.create o "constructor" s = (.inherited "constructor", s)
    ∧ IANAZone.create o "__proto__" s = (.inherited "__proto__", s) := by
  refine ⟨?_, ?_, ?_⟩
  · unfold IANAZone.create
    simp only [h1]
    rw [if_pos (by decide)]
  · unfold IANAZone.create
    simp only [h2]
    rw [if_pos (by decide)]
  · unfold IANAZone.create
    simp only [h3]
    rw [if_pos (by decide)]

/-- Witness for C10 at the pristine state. -/
theorem create_inherited_names_witness :
    IANAZone.create sampleOracle "toString" LibState.init
        = (.inherited "toString", LibState.init)
    ∧ IANAZone.create sampleOracle "constructor" LibState.init
        = (.inherited "constructor", LibState.init)
    ∧ IANAZone.create sampleOracle "__proto__" LibState.init
        = (.inherited "__proto__", LibState.init) :=
  create_inherited_names sampleOracle LibState.init rfl rfl rfl

/-- Oracle whose direct-style output is exactly the token `GMT+01:00`
(the real oracle produces such text for `Etc/GMT-1`, whose offset is +60
minutes). -/
def plusOneOracle : Oracle :=
  { directCtorOk := fun _ => true
    directFormat := fun _ _ => .ok (gmtTokenC '+' 1 0 none)
    calcCtorOk := fun _ => true
    hasFormatToParts := true
    calcFormatToParts := fun _ _ => []
    calcFormat := fun _ _ => []
    validatorOk := fun _ => true }

/-- **C3, counterexample.**  On the formatted text `GMT+01:00` — a sign
character `'+'` following the located GMT token — the code returns `+60`
minutes (`(44 - 43) * 60`), whereas the claim's formula (sign `-1` for the
character `'+'`) demands `-60`.  The claim's sign convention is therefore
false on the code; it would moreover contradict the code's own probe, which
demands `directOffset("Etc/GMT-1", ts) = +60` for exactly this text
shape. -/
theorem direct_sign_cex :
    (directOffset plusOneOracle "Etc/GMT-1" (some 0) LibState.init).1
        = .ok (some 60)
    ∧ ((-1 : ℚ)) * ((1 : ℚ) * 60 + 0 + 0 / 60) ≠ 60 := by
  constructor
  · with_unfolding_all decide
  · norm_num

/-- **C3, amended.**  Whenever a sign character (`'+'` or `'-'`) follows
the located GMT token, the Direct resolver returns
`sign * (hours * 60 + minutes + seconds / 60)` where the sign is `+1` for
the character `'+'` and `-1` for `'-'` (the code computes it as
`44 - charCode`): the oracle's `longOffset` text already carries the zone's
own offset from UTC in the standard sign convention, so no inversion
happens in the parser.  The spec's examples `offset("Etc/GMT+1", t) = -60`
and `offset("Etc/GMT-1", t) = +60` follow because the oracle formats those
zones' *actual* offsets (`GMT-01:00` resp. `GMT+01:00`), the inversion
being built into the IANA `Etc/GMT±k` zone names themselves. -/
theorem direct_sign_amended (o : Oracle) (z : String) (ts : JSNum) (s : LibState)
    (pre : List Char) (sgn : Char) (hrs mins : ℕ) (sec : Option ℕ)
    (hd : o.directCtorOk z = true)
    (hfmt : o.directFormat z ts = .ok (pre ++ gmtTokenC sgn hrs mins sec))
    (hidx : listIndexOfGMT (pre ++ gmtTokenC sgn hrs mins sec) = some pre.length)
    (hh : hrs < 100) (hm : mins < 100) (hs : sec.getD 0 < 100)
    (hsgn : sgn = '+' ∨ sgn = '-') :
    (directOffset o z ts s).1
      = .ok (some ((if sgn = '-' then (-1 : ℚ) else 1)
          * ((hrs : ℚ) * 60 + (mins : ℚ) + (sec.getD 0 : ℚ) / 60))) := by
  have hparse := parseDirect_token pre sgn hrs mins sec hidx hh hm hs
  have hval : ((44 : ℚ) - (sgn.toNat : ℚ))
      = (if sgn = '-' then (-1 : ℚ) else 1) := by
    rcases hsgn with h | h <;> subst h
    · rw [if_neg (by decide)]
      norm_num [show ('+' : Char).toNat = 43 from rfl]
    · rw [if_pos rfl]
      norm_num [show ('-' : Char).toNat = 45 from rfl]
  by_cases zm : z ∈ s.directOffsetDTFCache <;>
    simp [directOffset, makeDirectOffsetDTF, zm, hd, hfmt, hparse, hval, mul_assoc]

/-- Witness for the amended C3 at an explicit input: the sign `'+'` gives
`+1 * 60 = 60`. -/
theorem direct_sign_amended_witness :
    (directOffset plusOneOracle "Etc/GMT-1" (some 0) LibState.init).1
      = .ok (some ((if ('+' : Char) = '-' then (-1 : ℚ) else 1)
          * (((1 : ℕ) : ℚ) * 60 + ((0 : ℕ) : ℚ) + (((none : Option ℕ).getD 0 : ℕ) : ℚ) / 60))) :=
  direct_sign_amended plusOneOracle "Etc/GMT-1" (some 0) LibState.init [] '+' 1 0 none
    rfl rfl (by decide) (by decide) (by decide) (by decide) (Or.inl rfl)

/-- Oracle whose direct-style output is the token `GMT+00:00:30`, an offset
of thirty seconds (the real oracle produces second-bearing offsets for
pre-1972 local-mean-time zone history). -/
def fractionalOracle : Oracle :=
  { directCtorOk := fun _ => true
    directFormat := fun _ _ => .ok (gmtTokenC '+' 0 0 (some 30))
    calcCtorOk := fun _ => true
    hasFormatToParts := true
    calcFormatToParts := fun _ _ => []
    calcFormat := fun _ _ => []
    validatorOk := fun _ => true }

/-- **C9, counterexample.**  On the offset token `GMT+00:00:30` the Direct
resolver returns `1/2` — a finite value that is not an integer number of
minutes — refuting the claim that every resolution yields a signed integer
or the `NaN` sentinel. -/
theorem offset_integer_cex :
    (directOffset fractionalOracle "Africa/Monrovia" (some 0) LibState.init).1
        = .ok (some (1 / 2 : ℚ))
    ∧ (1 / 2 : ℚ).den ≠ 1 := by
  constructor
  · with_unfolding_all decide
  · with_unfolding_all decide

lemma floorSecond_dvd (t : ℤ) : (1000 : ℤ) ∣ floorSecond t := by
  simp only [floorSecond]
  have h := Int.tmod_add_tdiv t 1000
  split
  · exact ⟨t.tdiv 1000, by omega⟩
  · exact ⟨t.tdiv 1000 - 1, by omega⟩

lemma objToLocalTS_shape (y mo d h mi s : JSVal) :
    objToLocalTS y mo d h mi s = none
    ∨ ∃ c : ℤ, objToLocalTS y mo d h mi s = some ((c * 1000 : ℤ) : ℚ) := by
  unfold objToLocalTS
  split
  · right
    exact ⟨_, rfl⟩
  · left
    rfl

lemma calcFromFields_shape (f : Filled) (dv : ℤ) :
    calcFromFields f dv = none
    ∨ ∃ k : ℤ, calcFromFields f dv = some ((k : ℚ) / 60) := by
  rcases objToLocalTS_shape
      (if f.era = JSVal.str "BC" then
        JSVal.num ((jsToNumber f.year).map (fun q => -|q| + 1)) else f.year)
      f.month f.day
      (if f.hour = JSVal.num (some 24) then JSVal.num (some 0) else f.hour)
      f.minute f.second with hsh | ⟨c, hsh⟩
  · left
    simp only [calcFromFields, hsh]
  · right
    obtain ⟨e, he⟩ := floorSecond_dvd dv
    refine ⟨c - e, ?_⟩
    simp only [calcFromFields, hsh, he]
    congr 1
    push_cast
    field_simp
    ring

lemma calculatedOffset_shape (o : Oracle) (z : String) (ts : JSNum) (s : LibState) :
    (calculatedOffset o z ts s).1 = .error ()
    ∨ (calculatedOffset o z ts s).1 = .ok none
    ∨ ∃ k : ℤ, (calculatedOffset o z ts s).1 = .ok (some ((k : ℚ) / 60)) := by
  cases hdv : dateValue ts with
  | none =>
    right
    left
    simp only [calculatedOffset, hdv]
  | some dv =>
    rcases hmk : makeCalculatedOffsetDTF o z s with ⟨r, s2⟩
    cases r with
    | error e =>
      left
      simp only [calculatedOffset, hdv, hmk]
    | ok u =>
      by_cases hp : o.hasFormatToParts
      · rcases calcFromFields_shape (partsOffset (o.calcFormatToParts z dv)) dv with hc | ⟨k, hc⟩
        · right
          left
          simp only [calculatedOffset, hdv, hmk, hp, if_true, hc]
        · right
          right
          exact ⟨k, by simp only [calculatedOffset, hdv, hmk, hp, if_true, hc]⟩
      · rw [Bool.not_eq_true] at hp
        cases hh : hackyOffset (o.calcFormat z dv) with
        | none =>
          left
          simp only [calculatedOffset, hdv, hmk, hp, Bool.false_eq_true, if_false, hh]
        | some f =>
          rcases calcFromFields_shape f dv with hc | ⟨k, hc⟩
          · right
            left
            simp only [calculatedOffset, hdv, hmk, hp, Bool.false_eq_true, if_false, hh, hc]
          · right
            right
            exact ⟨k, by
              simp only [calculatedOffset, hdv, hmk, hp, Bool.false_eq_true, if_false, hh, hc]⟩

/-- **C9, amended.**  Every offset resolution returns a raised error, the
`NaN` sentinel, or a rational number of minutes `k / 60` with `k` a whole
number of seconds; the result is an *integer* number of minutes only when
the residual seconds vanish (mod 60), which second-bearing oracle offsets
like `GMT+00:00:30` do not satisfy.  The Calculated resolver obeys the
shape unconditionally; the Direct resolver is shown for a well-formed
located offset token. -/
theorem offset_whole_seconds
    (o : Oracle) (z : String) (ts : JSNum) (s : LibState)
    (pre : List Char) (sgn : Char) (hrs mins : ℕ) (sec : Option ℕ)
    (hd : o.directCtorOk z = true)
    (hfmt : o.directFormat z ts = .ok (pre ++ gmtTokenC sgn hrs mins sec))
    (hidx : listIndexOfGMT (pre ++ gmtTokenC sgn hrs mins sec) = some pre.length)
    (hh : hrs < 100) (hm : mins < 100) (hs : sec.getD 0 < 100) :
    (∃ k : ℤ, (directOffset o z ts s).1 = .ok (some ((k : ℚ) / 60)))
    ∧ ∀ (o₂ : Oracle) (z₂ : String) (ts₂ : JSNum) (s₂ : LibState),
        (calculatedOffset o₂ z₂ ts₂ s₂).1 = .error ()
        ∨ (calculatedOffset o₂ z₂ ts₂ s₂).1 = .ok none
        ∨ ∃ k : ℤ, (calculatedOffset o₂ z₂ ts₂ s₂).1 = .ok (some ((k : ℚ) / 60)) := by
  constructor
  · have hparse := parseDirect_token pre sgn hrs mins sec hidx hh hm hs
    refine ⟨(44 - (sgn.toNat : ℤ)) * (3600 * hrs + 60 * mins + (sec.getD 0 : ℤ)), ?_⟩
    by_cases zm : z ∈ s.directOffsetDTFCache <;>
      · simp [directOffset, makeDirectOffsetDTF, zm, hd, hfmt, hparse]
        ring
  · exact fun o₂ z₂ ts₂ s₂ => calculatedOffset_shape o₂ z₂ ts₂ s₂

/-- Witness for the amended C9 at the thirty-second offset token. -/
theorem offset_whole_seconds_witness :
    (∃ k : ℤ, (directOffset fractionalOracle "Africa/Monrovia" (some 0) LibState.init).1
        = .ok (some ((k : ℚ) / 60)))
    ∧ ∀ (o₂ : Oracle) (z₂ : String) (ts₂ : JSNum) (s₂ : LibState),
        (calculatedOffset o₂ z₂ ts₂ s₂).1 = .error ()
        ∨ (calculatedOffset o₂ z₂ ts₂ s₂).1 = .ok none
        ∨ ∃ k : ℤ, (calculatedOffset o₂ z₂ ts₂ s₂).1 = .ok (some ((k : ℚ) / 60)) :=
  offset_whole_seconds fractionalOracle "Africa/Monrovia" (some 0) LibState.init
    [] '+' 0 0 (some 30) rfl rfl (by decide) (by decide) (by decide) (by decide)

/-- Oracle that rejects every formatter construction and every validation
probe — the behaviour the external interface prescribes for unknown zone
names ("must reject unknown zone names by raising at construction
time"). -/
def rejectingOracle : Oracle :=
  { directCtorOk := fun _ => false
    directFormat := fun _ _ => .ok []
    calcCtorOk := fun _ => false
    hasFormatToParts := true
    calcFormatToParts := fun _ _ => []
    calcFormat := fun _ _ => []
    validatorOk := fun _ => false }

/-- **C1, counterexample.**  A zone created from a name the oracle rejects
has `valid = false`, and `offset` on it *raises* under either resolved
strategy instead of returning the `NaN` sentinel: the Direct resolver
constructs its formatter before the `try` block (line 101 vs. 105), and the
Calculated resolver has no `try` at all, so the oracle's construction-time
`RangeError` propagates to the caller in both cases. -/
theorem invalid_zone_offset_cex :
    (IANAZone.create rejectingOracle "Fantasia/Castle" LibState.init).1
        = .zone ⟨0, "Fantasia/Castle", false⟩
    ∧ (IANAZone.offset rejectingOracle 0 ⟨0, "Fantasia/Castle", false⟩ (some 0)
        { LibState.init with offsetFunc := some .direct }).1 = .error ()
    ∧ (IANAZone.offset rejectingOracle 0 ⟨0, "Fantasia/Castle", false⟩ (some 0)
        { LibState.init with offsetFunc := some .calculated }).1 = .error () := by
  refine ⟨?_, ?_, ?_⟩ <;> with_unfolding_all decide

/-- **C1, amended.**  For a zone whose name the oracle's formatter
construction rejects (and which has no cached formatter, as an invalid name
never acquires one), a resolved `offset` query propagates the construction
error to the caller under *both* strategies — for the Calculated strategy
provided the instant is numeric, since a `NaN` instant short-circuits to
the sentinel before any formatter is constructed.  `NaN` without raising is
returned under Direct only when construction succeeds and the `format` call
itself fails. -/
theorem invalid_zone_offset_raises (o : Oracle) (now : ℤ) (z : ZoneObj) (ts : JSNum)
    (s : LibState) (strat : Strategy)
    (hres : s.offsetFunc = some strat)
    (hctor : (match strat with
      | .direct => o.directCtorOk z.zoneName
      | .calculated => o.calcCtorOk z.zoneName) = false)
    (hcache : (match strat with
      | .direct => z.zoneName ∉ s.directOffsetDTFCache
      | .calculated => z.zoneName ∉ s.calculatedOffsetDTFCache))
    (hts : strat = Strategy.calculated → (dateValue ts).isSome) :
    (IANAZone.offset o now z ts s).1 = .error () := by
  cases strat with
  | direct =>
    simp only at hctor hcache
    unfold IANAZone.offset resolveOffsetFunc
    simp only [hres]
    unfold directOffset makeDirectOffsetDTF
    rw [if_neg hcache, if_neg (by simp [hctor])]
  | calculated =>
    simp only at hctor hcache
    obtain ⟨dv, hdv⟩ := Option.isSome_iff_exists.mp (hts rfl)
    unfold IANAZone.offset resolveOffsetFunc
    simp only [hres]
    unfold calculatedOffset makeCalculatedOffsetDTF
    simp only [hdv]
    rw [if_neg hcache, if_neg (by simp [hctor])]

/-- Witness for the amended C1 under the Direct strategy at a rejected
name. -/
theorem invalid_zone_offset_raises_witness :
    (IANAZone.offset rejectingOracle 0 ⟨0, "Bad/Zone", false⟩ (some 0)
        { LibState.init with offsetFunc := some .direct }).1 = .error () :=
  invalid_zone_offset_raises rejectingOracle 0 ⟨0, "Bad/Zone", false⟩ (some 0)
    { LibState.init with offsetFunc := some .direct } .direct rfl rfl
    (by decide) (fun h => nomatch h)

/-- Oracle without `formatToParts` whose textual output renders midnight of
2020-10-16 with an hour field of `24` (the Chromium quirk the code's
comment cites). -/
def hour24HackyOracle : Oracle :=
  { directCtorOk := fun _ => true
    directFormat := fun _ _ => .ok []
    calcCtorOk := fun _ => true
    hasFormatToParts := false
    calcFormatToParts := fun _ _ => []
    calcFormat := fun _ _ => ("10/16/2020 AD, 24:00:00").data
    validatorOk := fun _ => true }

/-- The same oracle output delivered through the structured `formatToParts`
path instead. -/
def hour24PartsOracle : Oracle :=
  { directCtorOk := fun _ => true
    directFormat := fun _ _ => .ok []
    calcCtorOk := fun _ => true
    hasFormatToParts := true
    calcFormatToParts := fun _ _ => civilParts "10" "16" "2020" "AD" "24" "00" "00"
    calcFormat := fun _ _ => []
    validatorOk := fun _ => true }

set_option maxRecDepth 4000 in
/-- **C8, counterexample.**  At the instant 2020-10-16T00:00:00Z
(epoch 1602806400000) with identical oracle field content, the structured
path normalizes the hour `24` (the field arrives as the *number* 24, the
strict comparison fires, the offset is 0), but the positional fallback does
*not*: `hackyOffset` returns the hour as the *string* `"24"`, the strict
`hour === 24` comparison is false for a string, the unnormalized hour flows
into the conversion, and the resolver reports 1440 minutes — refuting the
claim that the normalization applies to fields obtained from either
path. -/
theorem hour24_normalization_cex :
    (calculatedOffset hour24PartsOracle "UTC" (some ((1602806400000 : ℤ) : ℚ))
        LibState.init).1 = .ok (some 0)
    ∧ (calculatedOffset hour24HackyOracle "UTC" (some ((1602806400000 : ℤ) : ℚ))
        LibState.init).1 = .ok (some 1440)
    ∧ (0 : ℚ) ≠ 1440 := by
  refine ⟨?_, ?_, by norm_num⟩ <;> with_unfolding_all decide

/-- `calcFromFields` on numeric year/month/day/minute/second fields, era
`AD`, and an arbitrary hour-slot value that is *not* the number 24 but
coerces to the number `hq`: the hour flows into the conversion
unnormalized. -/
lemma calcFromFields_eval (y mo d mi ss dv : ℤ) (hv : JSVal) (hq : ℤ)
    (hnum : jsToNumber hv = some ((hq : ℤ) : ℚ)) (hne : hv ≠ .num (some 24)) :
    calcFromFields
      { year := .num (some (y : ℚ)), month := .num (some (mo : ℚ))
        day := .num (some (d : ℚ)), era := .str "AD"
        hour := hv, minute := .num (some (mi : ℚ))
        second := .num (some (ss : ℚ)) } dv
    = some (((((daysFromCivil y mo d * 86400 + hq * 3600 + mi * 60 + ss) * 1000 : ℤ) : ℚ)
        - ((floorSecond dv : ℤ) : ℚ)) / (60 * 1000)) := by
  simp only [calcFromFields]
  rw [if_neg (by simp), if_neg hne]
  unfold objToLocalTS
  rw [hnum]
  simp only [jsToNumber, jsTrunc_intCast]

/-- **C8, amended.**  The hour-24 normalization applies only to fields from
the structured field-list output, where the hour arrives as a number: a
numeric hour 24 is converted exactly like hour 0.  In the positional
fallback the hour arrives as the string `"24"`, the strict comparison with
the number 24 fails, and the value flows into the conversion unnormalized,
yielding an offset larger by 1440 minutes (one day) than the normalized
result. -/
theorem hour24_normalization_amended (y mo d mi ss dv : ℤ) :
    calcFromFields
      { year := .num (some (y : ℚ)), month := .num (some (mo : ℚ))
        day := .num (some (d : ℚ)), era := .str "AD"
        hour := .num (some 24), minute := .num (some (mi : ℚ))
        second := .num (some (ss : ℚ)) } dv
      = calcFromFields
      { year := .num (some (y : ℚ)), month := .num (some (mo : ℚ))
        day := .num (some (d : ℚ)), era := .str "AD"
        hour := .num (some 0), minute := .num (some (mi : ℚ))
        second := .num (some (ss : ℚ)) } dv
    ∧ ∃ q : ℚ,
      calcFromFields
        { year := .num (some (y : ℚ)), month := .num (some (mo : ℚ))
          day := .num (some (d : ℚ)), era := .str "AD"
          hour := .str "24", minute := .num (some (mi : ℚ))
          second := .num (some (ss : ℚ)) } dv = some q
      ∧ calcFromFields
        { year := .num (some (y : ℚ)), month := .num (some (mo : ℚ))
          day := .num (some (d : ℚ)), era := .str "AD"
          hour := .num (some 0), minute := .num (some (mi : ℚ))
          second := .num (some (ss : ℚ)) } dv = some (q - 1440) := by
  have h0 : jsToNumber (JSVal.num (some 0)) = some (((0 : ℤ) : ℚ)) := by
    simp [jsToNumber]
  have hstr : jsToNumber (JSVal.str "24") = some (((24 : ℤ) : ℚ)) := by
    with_unfolding_all decide
  have e0 := calcFromFields_eval y mo d mi ss dv (.num (some 0)) 0 h0 (by simp)
  have estr := calcFromFields_eval y mo d mi ss dv (.str "24") 24 hstr (by simp)
  constructor
  · rw [e0]
    simp only [calcFromFields, if_true]
    unfold objToLocalTS
    rw [if_neg (show ¬ (JSVal.str "AD" = JSVal.str "BC") by simp)]
    simp only [jsToNumber, jsTrunc_intCast]
    rw [show jsTrunc 0 = 0 from by norm_num [jsTrunc]]
  · refine ⟨_, estr, ?_⟩
    rw [e0]
    congr 1
    push_cast
    field_simp
    ring

/-- A sample zone instance (as allocated by `create` in a fresh state). -/
def zNY : ZoneObj :=
  { id := 0, zoneName := "America/New_York", valid := true }

/-- Oracle whose direct-style output carries no GMT token and no digits
(`junk`), so the strategy probe fails its first comparison and selects the
Calculated resolver, while still constructing (and caching) the direct
formatter for `Etc/GMT`. -/
def junkDirectOracle : Oracle :=
  { directCtorOk := fun _ => true
    directFormat := fun _ _ => .ok (("junk").data)
    calcCtorOk := fun _ => true
    hasFormatToParts := true
    calcFormatToParts := fun _ _ => civilParts "1" "1" "1970" "AD" "0" "0" "0"
    calcFormat := fun _ _ => []
    validatorOk := fun _ => true }

/-- **C4, counterexample.**  `resetCache()` does *not* re-arm the strategy
probe: after a first `offset` call resolves the strategy (to Calculated
under this oracle, caching the probe's `Etc/GMT` direct formatter on the
way), `resetCache` empties the caches but leaves `offsetFunc` set, and the
next `offset` call runs no probe — observable because the probe, when it
runs, necessarily constructs and caches the `Etc/GMT` direct formatter
(last conjunct), yet after the reset the direct cache stays empty (third
conjunct). -/
theorem resetCache_cex :
    ((IANAZone.resetCache
        ((IANAZone.offset junkDirectOracle 0 zNY (some 0) LibState.init).2)).offsetFunc
      = some Strategy.calculated)
    ∧ ((IANAZone.resetCache
        ((IANAZone.offset junkDirectOracle 0 zNY (some 0) LibState.init).2)).directOffsetDTFCache
      = [])
    ∧ ((IANAZone.offset junkDirectOracle 0 zNY (some 0)
        (IANAZone.resetCache
          ((IANAZone.offset junkDirectOracle 0 zNY (some 0) LibState.init).2))).2.directOffsetDTFCache
      = [])
    ∧ ((IANAZone.offset junkDirectOracle 0 zNY (some 0)
        (IANAZone.resetCache
          ((IANAZone.offset junkDirectOracle 0 zNY (some 0) LibState.init).2))).2.offsetFunc
      = some Strategy.calculated)
    ∧ ((IANAZone.offset junkDirectOracle 0 zNY (some 0) LibState.init).2.directOffsetDTFCache
      = ["Etc/GMT"]) := by
  refine ⟨?_, ?_, ?_, ?_, ?_⟩ <;> with_unfolding_all decide

/-- **C4, amended.**  After `resetCache()` the zone identity cache and both
formatter caches are empty and a subsequent `create(name)` returns a newly
constructed instance not identical to any pre-reset instance; the Active
Strategy, however, is *not* cleared — `offsetFunc` keeps its value, so the
next `offset()` call uses the cached selection without re-running the
probe.  (`hinv` is the allocation invariant every reachable state
satisfies: cached instances carry stamps below the allocation counter.) -/
theorem resetCache_amended (o : Oracle) (name : String) (s : LibState)
    (hname : name ∉ objectProtoTruthyKeys)
    (hinv : ∀ p ∈ s.ianaZoneCache, p.2.id < s.nextId) :
    (IANAZone.resetCache s).ianaZoneCache = []
    ∧ (IANAZone.resetCache s).directOffsetDTFCache = []
    ∧ (IANAZone.resetCache s).calculatedOffsetDTFCache = []
    ∧ (IANAZone.resetCache s).offsetFunc = s.offsetFunc
    ∧ ∃ z : ZoneObj,
        (IANAZone.create o name (IANAZone.resetCache s)).1 = .zone z
        ∧ ∀ p ∈ s.ianaZoneCache, p.2 ≠ z := by
  refine ⟨rfl, rfl, rfl, rfl,
    ⟨{ id := s.nextId, zoneName := name, valid := IANAZone.isValidZone o name }, ?_, ?_⟩⟩
  · simp [IANAZone.create, IANAZone.resetCache, List.lookup, hname]
  · intro p hp heq
    have := hinv p hp
    rw [heq] at this
    simp at this

/-- A state as it looks after some activity: one cached zone, two cached
formatters, a resolved strategy, one allocation performed. -/
def preResetState : LibState :=
  { ianaZoneCache := [("America/New_York", zNY)]
    directOffsetDTFCache := ["Etc/GMT"]
    calculatedOffsetDTFCache := ["America/New_York"]
    offsetFunc := some .calculated
    nextId := 1
    validatorCalls := 1 }

/-- Witness for the amended C4 at an explicit populated state. -/
theorem resetCache_amended_witness :
    (IANAZone.resetCache preResetState).ianaZoneCache = []
    ∧ (IANAZone.resetCache preResetState).directOffsetDTFCache = []
    ∧ (IANAZone.resetCache preResetState).calculatedOffsetDTFCache = []
    ∧ (IANAZone.resetCache preResetState).offsetFunc = preResetState.offsetFunc
    ∧ ∃ z : ZoneObj,
        (IANAZone.create sampleOracle "Asia/Kolkata" (IANAZone.resetCache preResetState)).1
          = .zone z
        ∧ ∀ p ∈ preResetState.ianaZoneCache, p.2 ≠ z :=
  resetCache_amended sampleOracle "Asia/Kolkata" preResetState (by decide) (by decide)

lemma directOffset_offsetFunc (o : Oracle) (zone : String) (ts : JSNum) (s : LibState) :
    (directOffset o zone ts s).2.offsetFunc = s.offsetFunc := by
  unfold directOffset makeDirectOffsetDTF
  by_cases hm : zone ∈ s.directOffsetDTFCache
  · rw [if_pos hm]
    cases o.directFormat zone ts <;> rfl
  · rw [if_neg hm]
    by_cases hc : o.directCtorOk zone
    · rw [if_pos hc]
      cases o.directFormat zone ts <;> rfl
    · rw [if_neg hc]

lemma calculatedOffset_offsetFunc (o : Oracle) (zone : String) (ts : JSNum) (s : LibState) :
    (calculatedOffset o zone ts s).2.offsetFunc = s.offsetFunc := by
  cases hdv : dateValue ts with
  | none => simp [calculatedOffset, hdv]
  | some dv =>
    by_cases hm : zone ∈ s.calculatedOffsetDTFCache
    · by_cases hp : o.hasFormatToParts
      · simp [calculatedOffset, makeCalculatedOffsetDTF, hdv, hm, hp]
      · cases hh : hackyOffset (o.calcFormat zone dv) <;>
          simp [calculatedOffset, makeCalculatedOffsetDTF, hdv, hm, hp, hh]
    · by_cases hc : o.calcCtorOk zone
      · by_cases hp : o.hasFormatToParts
        · simp [calculatedOffset, makeCalculatedOffsetDTF, hdv, hm, hc, hp]
        · cases hh : hackyOffset (o.calcFormat zone dv) <;>
            simp [calculatedOffset, makeCalculatedOffsetDTF, hdv, hm, hc, hp, hh]
      · simp [calculatedOffset, makeCalculatedOffsetDTF, hdv, hm, hc]

lemma directOffset_cache (o : Oracle) (zone : String) (ts : JSNum) (s : LibState) :
    (directOffset o zone ts s).2.directOffsetDTFCache = s.directOffsetDTFCache
    ∨ (directOffset o zone ts s).2.directOffsetDTFCache = zone :: s.directOffsetDTFCache := by
  unfold directOffset makeDirectOffsetDTF
  by_cases hm : zone ∈ s.directOffsetDTFCache
  · rw [if_pos hm]
    cases o.directFormat zone ts <;> exact Or.inl rfl
  · rw [if_neg hm]
    by_cases hc : o.directCtorOk zone
    · rw [if_pos hc]
      cases o.directFormat zone ts <;> exact Or.inr rfl
    · rw [if_neg hc]
      exact Or.inl rfl

lemma directOffset_fst_congr (o : Oracle) (zone : String) (ts : JSNum) (s s' : LibState)
    (h : (zone ∈ s'.directOffsetDTFCache) ↔ (zone ∈ s.directOffsetDTFCache)) :
    (directOffset o zone ts s').1 = (directOffset o zone ts s).1 := by
  unfold directOffset makeDirectOffsetDTF
  by_cases hm : zone ∈ s.directOffsetDTFCache
  · rw [if_pos hm, if_pos (h.mpr hm)]
    cases o.directFormat zone ts <;> rfl
  · rw [if_neg hm, if_neg (fun hx => hm (h.mp hx))]
    by_cases hc : o.directCtorOk zone
    · rw [if_pos hc, if_pos hc]
      cases o.directFormat zone ts <;> rfl
    · rw [if_neg hc, if_neg hc]

lemma offset_resolved (o : Oracle) (now : ℤ) (z : ZoneObj) (ts : JSNum)
    (s : LibState) (f : Strategy) :
    s.offsetFunc = some f →
    IANAZone.offset o now z ts s
      = (match f with
         | Strategy.direct => directOffset o z.zoneName ts s
         | Strategy.calculated => calculatedOffset o z.zoneName ts s) := by
  intro hf
  unfold IANAZone.offset resolveOffsetFunc
  simp only [hf]

lemma offset_offsetFunc_resolved (o : Oracle) (now : ℤ) (z : ZoneObj) (ts : JSNum)
    (s : LibState) (f : Strategy) (hf : s.offsetFunc = some f) :
    (IANAZone.offset o now z ts s).2.offsetFunc = some f := by
  rw [offset_resolved o now z ts s f hf]
  cases f
  · exact (directOffset_offsetFunc o z.zoneName ts s).trans hf
  · exact (calculatedOffset_offsetFunc o z.zoneName ts s).trans hf

/-- Characterization of the probe: from an unresolved state, the Direct
strategy is selected exactly when the three reference calls — evaluated in
the *initial* cache state, which is legitimate because a `directOffset`
result does not depend on which formatters happen to be cached — return
`0`, `-60` and `+60`; in every other case (any mismatch, `NaN`, or raised
error) Calculated is selected.  Either way the chosen strategy is stored in
`offsetFunc`. -/
lemma resolveOffsetFunc_none (o : Oracle) (now : ℤ) (s : LibState)
    (h : s.offsetFunc = none) :
    ((resolveOffsetFunc o now s).1 = Strategy.direct
      ↔ ((directOffset o "Etc/GMT" (some (now : ℚ)) s).1 = .ok (some 0)
        ∧ (directOffset o "Etc/GMT+1" (some (now : ℚ)) s).1 = .ok (some (-60))
        ∧ (directOffset o "Etc/GMT-1" (some (now : ℚ)) s).1 = .ok (some 60)))
    ∧ (resolveOffsetFunc o now s).2.offsetFunc = some ((resolveOffsetFunc o now s).1) := by
  rcases h1 : directOffset o "Etc/GMT" (some (now : ℚ)) s with ⟨r1, s1⟩
  have hc1 := directOffset_cache o "Etc/GMT" (some (now : ℚ)) s
  rw [h1] at hc1
  have hm1 : ∀ zn : String, zn ≠ "Etc/GMT" →
      ((zn ∈ s1.directOffsetDTFCache) ↔ (zn ∈ s.directOffsetDTFCache)) := by
    intro zn hne
    rcases hc1 with hc | hc <;> rw [hc] <;> simp [hne]
  rcases h2 : directOffset o "Etc/GMT+1" (some (now : ℚ)) s1 with ⟨r2, s2⟩
  have hc2 := directOffset_cache o "Etc/GMT+1" (some (now : ℚ)) s1
  rw [h2] at hc2
  have hm2 : ∀ zn : String, zn ≠ "Etc/GMT+1" →
      ((zn ∈ s2.directOffsetDTFCache) ↔ (zn ∈ s1.directOffsetDTFCache)) := by
    intro zn hne
    rcases hc2 with hc | hc <;> rw [hc] <;> simp [hne]
  have v2 : (directOffset o "Etc/GMT+1" (some (now : ℚ)) s).1 = r2 := by
    rw [← directOffset_fst_congr o "Etc/GMT+1" (some (now : ℚ)) s s1 (hm1 _ (by decide)), h2]
  rcases h3 : directOffset o "Etc/GMT-1" (some (now : ℚ)) s2 with ⟨r3, s3⟩
  have v3 : (directOffset o "Etc/GMT-1" (some (now : ℚ)) s).1 = r3 := by
    have i1 : ("Etc/GMT-1" ∈ s2.directOffsetDTFCache)
        ↔ ("Etc/GMT-1" ∈ s.directOffsetDTFCache) :=
      (hm2 _ (by decide)).trans (hm1 _ (by decide))
    rw [← directOffset_fst_congr o "Etc/GMT-1" (some (now : ℚ)) s s2 i1, h3]
  unfold resolveOffsetFunc
  simp only [h, h1]
  rw [v2, v3]
  rcases r1 with e1 | v1
  · exact ⟨iff_of_false (by simp) (by rintro ⟨c1, -, -⟩; exact Except.noConfusion c1), rfl⟩
  · rcases v1 with _ | q1
    · exact ⟨iff_of_false (by simp) (by rintro ⟨c1, -, -⟩; simp at c1), rfl⟩
    · by_cases hq1 : q1 = 0
      · subst hq1
        simp only [if_true]
        rw [h2]
        rcases r2 with e2 | v2'
        · exact ⟨iff_of_false (by simp) (by rintro ⟨-, c2, -⟩; exact Except.noConfusion c2), rfl⟩
        · rcases v2' with _ | q2
          · exact ⟨iff_of_false (by simp) (by rintro ⟨-, c2, -⟩; simp at c2), rfl⟩
          · by_cases hq2 : q2 = -60
            · subst hq2
              simp only [if_true]
              rw [h3]
              rcases r3 with e3 | v3'
              · exact ⟨iff_of_false (by simp)
                  (by rintro ⟨-, -, c3⟩; exact Except.noConfusion c3), rfl⟩
              · rcases v3' with _ | q3
                · exact ⟨iff_of_false (by simp) (by rintro ⟨-, -, c3⟩; simp at c3), rfl⟩
                · by_cases hq3 : q3 = 60
                  · subst hq3
                    simp only [if_true]
                    exact ⟨by simp, trivial⟩
                  · simp only []
                    rw [if_neg hq3]
                    exact ⟨iff_of_false (by simp)
                      (by rintro ⟨-, -, c3⟩; exact hq3 (by simpa using c3)), rfl⟩
            · simp only []
              rw [if_neg hq2]
              exact ⟨iff_of_false (by simp)
                (by rintro ⟨-, c2, -⟩; exact hq2 (by simpa using c2)), rfl⟩
      · simp only []
        rw [if_neg hq1]
        exact ⟨iff_of_false (by simp)
          (by rintro ⟨c1, -, -⟩; exact hq1 (by simpa using c1)), rfl⟩

/-- **C5.**  The Active Strategy resolves exactly once: from an unresolved
state (`offsetFunc = none`), the first `offset` query of *any* zone runs the
probe and stores a strategy — Direct exactly when `directOffset` returns
`0`, `-60` and `+60` on `Etc/GMT`, `Etc/GMT+1` and `Etc/GMT-1` (any raised
error or mismatch selecting Calculated) — and the stored selection never
changes afterwards: every later `offset` query, from any state with a
resolved strategy, is exactly the chosen resolver applied to the zone name
and instant, with no re-probing. -/
theorem strategy_probe_once (o : Oracle) (now : ℤ) (z : ZoneObj) (ts : JSNum)
    (s : LibState) (h : s.offsetFunc = none) :
    ((IANAZone.offset o now z ts s).2.offsetFunc = some Strategy.direct
      ↔ ((directOffset o "Etc/GMT" (some (now : ℚ)) s).1 = .ok (some 0)
        ∧ (directOffset o "Etc/GMT+1" (some (now : ℚ)) s).1 = .ok (some (-60))
        ∧ (directOffset o "Etc/GMT-1" (some (now : ℚ)) s).1 = .ok (some 60)))
    ∧ ((IANAZone.offset o now z ts s).2.offsetFunc).isSome
    ∧ (∀ (now₂ : ℤ) (z₂ : ZoneObj) (ts₂ : JSNum),
        (IANAZone.offset o now₂ z₂ ts₂ (IANAZone.offset o now z ts s).2).2.offsetFunc
          = (IANAZone.offset o now z ts s).2.offsetFunc)
    ∧ (∀ (s' : LibState) (f : Strategy) (now₂ : ℤ) (z₂ : ZoneObj) (ts₂ : JSNum),
        s'.offsetFunc = some f →
        IANAZone.offset o now₂ z₂ ts₂ s'
          = (match f with
             | Strategy.direct => directOffset o z₂.zoneName ts₂ s'
             | Strategy.calculated => calculatedOffset o z₂.zoneName ts₂ s')) := by
  have R := resolveOffsetFunc_none o now s h
  have hofs : (IANAZone.offset o now z ts s).2.offsetFunc
      = some ((resolveOffsetFunc o now s).1) := by
    unfold IANAZone.offset
    rcases hr : resolveOffsetFunc o now s with ⟨f, s₁⟩
    have h2 : s₁.offsetFunc = some f := by
      have := R.2
      rw [hr] at this
      exact this
    cases f
    · exact (directOffset_offsetFunc o z.zoneName ts s₁).trans h2
    · exact (calculatedOffset_offsetFunc o z.zoneName ts s₁).trans h2
  refine ⟨?_, ?_, ?_, ?_⟩
  · rw [hofs]
    exact (Option.some_inj).trans R.1
  · rw [hofs]
    rfl
  · intro now₂ z₂ ts₂
    rw [offset_offsetFunc_resolved o now₂ z₂ ts₂ _ ((resolveOffsetFunc o now s).1) hofs, hofs]
  · intro s' f now₂ z₂ ts₂ hf
    exact offset_resolved o now₂ z₂ ts₂ s' f hf

/-- Oracle on which the probe succeeds: the three `Etc/GMT` reference zones
format to their correct `longOffset` tokens (a signless `GMT` for
`Etc/GMT`). -/
def etcOracle : Oracle :=
  { directCtorOk := fun _ => true
    directFormat := fun z _ =>
      if z = "Etc/GMT+1" then .ok (gmtTokenC '-' 1 0 none)
      else if z = "Etc/GMT-1" then .ok (gmtTokenC '+' 1 0 none)
      else .ok (['G', 'M', 'T'])
    calcCtorOk := fun _ => true
    hasFormatToParts := true
    calcFormatToParts := fun _ _ => []
    calcFormat := fun _ _ => []
    validatorOk := fun _ => true }

/-- Witness for C5: on `etcOracle` the probe's three conditions hold, so the
first offset query resolves the strategy to Direct. -/
theorem strategy_probe_once_witness :
    (IANAZone.offset etcOracle 0 zNY (some 0) LibState.init).2.offsetFunc
      = some Strategy.direct :=
  (strategy_probe_once etcOracle 0 zNY (some 0) LibState.init rfl).1.mpr
    ⟨by with_unfolding_all decide, by with_unfolding_all decide, by with_unfolding_all decide⟩
